import Mathlib

/-!
# Verification of the maestro process-execution core

Shallow embedding of the repository's source files and proofs of the
specification's claims about them:

* `src/process/context_switch.s` — the context switch routine (x86 assembly),
  embedded as a list of instructions interpreted by a small-step function over
  an explicit CPU-state record, producing both the final state and a trace of
  hardware-visible events;
* the `sys_exit` syscall handler (C), embedded as a straight-line statement
  list producing an event trace, plus a program-location step function for its
  terminal behaviour;
* `src/multiboot.c` — `read_boot_tags`, embedded twice: as a structural fold
  over a tag list and as a fuel-bounded walk over a byte-offset-indexed memory,
  faithful to the `(size + 7) & ~7` uint32 pointer bump;
* `src/util/util.h` — the `IS_ALIGNED` / `ALIGN_DOWN` / `ALIGN_UP` / `ALIGN`
  macros over 32-bit addresses, with the bitwise masks kept as in the source.

Machine integers are modelled as `Nat` with explicit reductions modulo `2^32`
(or `2^16` for segment selectors) exactly where the hardware or the C integer
conversions truncate.
-/

set_option autoImplicit false

namespace Maestro

/-! ## CPU state and hardware-visible events

The CPU-state record holds the registers that `context_switch.s` reads or
writes: the eight general-purpose registers, the six segment selectors, the
instruction pointer, the flags register, the current privilege level, and the
kernel stack (modelled as the list of pushed 32-bit values, most recent
first). -/

/-- The four data-segment registers written by `mov %ax, %ds` / `%es` /
`%fs` / `%gs` in `context_switch.s`. -/
inductive SegReg
  | ds | es | fs | gs
  deriving Repr, DecidableEq, BEq

/-- Hardware-visible operations emitted by the execution core, in the sense of
the specification's observed operation traces: data-segment selector loads,
stack pushes (the privilege-transition return image), the interrupt controller
acknowledgment `pic_EOI(line)`, `sti`, `iret`, the call to the process
lifecycle hook `process_exit(process, status)`, and a software trap
`int $vector`. -/
inductive Event
  | loadSeg (r : SegReg) (v : Nat)
  | push (v : Nat)
  | eoi (line : Nat)
  | sti
  | iret
  | processExit (p s : Nat)
  | softTrap (v : Nat)
  deriving Repr, DecidableEq, BEq

/-- The kind of an event, forgetting its operands; used to state ordering
properties of traces independently of the symbolic register values. -/
inductive EvKind
  | kLoadSeg | kPush | kEoi | kSti | kIret | kProcessExit | kSoftTrap
  deriving Repr, DecidableEq, BEq

/-- Forget an event's operands, keeping its kind. -/
def evKind : Event → EvKind
  | .loadSeg _ _ => .kLoadSeg
  | .push _ => .kPush
  | .eoi _ => .kEoi
  | .sti => .kSti
  | .iret => .kIret
  | .processExit _ _ => .kProcessExit
  | .softTrap _ => .kSoftTrap

/-- CPU state: the registers touched by `context_switch.s`.  `cpl` is the
current privilege level (the hardware's CPL); `stack` is the kernel stack as a
list of 32-bit values, most recently pushed first.  `eflags` bit 9 is the
interrupt-enable flag set by `sti`. -/
structure CPU where
  eax : Nat
  ebx : Nat
  ecx : Nat
  edx : Nat
  esi : Nat
  edi : Nat
  ebp : Nat
  esp : Nat
  ds : Nat
  es : Nat
  fs : Nat
  gs : Nat
  ss : Nat
  cs : Nat
  eip : Nat
  eflags : Nat
  cpl : Nat
  stack : List Nat
  deriving Repr, DecidableEq, BEq

/-- Push a 32-bit value: the stored dword is truncated modulo `2^32` and `esp`
decreases by 4 (with 32-bit wraparound). -/
def pushOp (v : Nat) (c : CPU) : CPU :=
  { c with esp := (c.esp + (2 ^ 32 - 4)) % 2 ^ 32, stack := v % 2 ^ 32 :: c.stack }

/-- Write a 16-bit selector into one of the four data-segment registers. -/
def setSeg : CPU → SegReg → Nat → CPU
  | c, .ds, v => { c with ds := v }
  | c, .es, v => { c with es := v }
  | c, .fs, v => { c with fs := v }
  | c, .gs, v => { c with gs := v }

/-- Semantics of `iret` (hardware, per the specification's privilege-transition
return): pop `eip`, `cs`, `eflags`; when the requested privilege level of the
popped code selector differs from the current privilege level (a ring
transition), additionally pop `esp` and `ss`; otherwise keep the current stack.
The new CPL is the popped selector's RPL (its low two bits).  A pop from an
empty stack is never reached in the runs considered here and leaves the state
unchanged. -/
def iretOp (c : CPU) : CPU :=
  match c.stack with
  | eipVal :: csVal :: eflVal :: rest =>
    let cs16 := csVal % 2 ^ 16
    if cs16 % 4 ≠ c.cpl then
      match rest with
      | espVal :: ssVal :: rest2 =>
        { c with eip := eipVal, cs := cs16, eflags := eflVal,
                 esp := espVal, ss := ssVal % 2 ^ 16, cpl := cs16 % 4,
                 stack := rest2 }
      | _ => c
    else
      { c with eip := eipVal, cs := cs16, eflags := eflVal,
               cpl := cs16 % 4, stack := rest }
  | _ => c

/-- The instructions of `context_switch.s`, one constructor per source line
(the cdecl call sequence `push $0x0; call pic_EOI; add $4, %esp` is one
`callEOI` step whose operand records the pushed argument).  Arguments read
from the caller's stack frame (`4(%ebp)`, `8(%ebp)`, `12(%ebp)`, `16(%ebp)`)
are carried as operands, reflecting the routine's cdecl parameters. -/
inductive Instr
  | movEspEbp
  | movToEax (v : Nat)
  | movAxSeg (r : SegReg)
  | pushEax
  | pushArg (v : Nat)
  | pushfI
  | callEOI (line : Nat)
  | stiI
  | iretI
  deriving Repr, DecidableEq

/-- Small-step semantics of one instruction, returning the next CPU state and
the hardware-visible events it emits (plain register moves emit none). -/
def step (c : CPU) : Instr → CPU × List Event
  | .movEspEbp => ({ c with ebp := c.esp }, [])
  | .movToEax v => ({ c with eax := v % 2 ^ 32 }, [])
  | .movAxSeg r => (setSeg c r (c.eax % 2 ^ 16), [.loadSeg r (c.eax % 2 ^ 16)])
  | .pushEax => (pushOp c.eax c, [.push (c.eax % 2 ^ 32)])
  | .pushArg v => (pushOp v c, [.push (v % 2 ^ 32)])
  | .pushfI => (pushOp c.eflags c, [.push (c.eflags % 2 ^ 32)])
  | .callEOI line => (c, [.eoi line])
  | .stiI => ({ c with eflags := c.eflags ||| 2 ^ 9 }, [.sti])
  | .iretI => (iretOp c, [.iret])

/-- Run a straight-line instruction list, accumulating the emitted events. -/
def exec (c : CPU) : List Instr → CPU × List Event
  | [] => (c, [])
  | i :: is =>
    let s := step c i
    let t := exec s.1 is
    (t.1, s.2 ++ t.2)

/-- The instruction list of `context_switch.s`, line by line.  The routine's
cdecl arguments are `4(%ebp)` = destination stack pointer, `8(%ebp)` =
destination instruction pointer, `12(%ebp)` = destination data-segment
selector, `16(%ebp)` = destination code-segment selector. -/
def context_switch_prog (destEsp destEip dataSel destCs : Nat) : List Instr :=
  [ .movEspEbp,
    .movToEax dataSel,
    .movAxSeg .ds, .movAxSeg .es, .movAxSeg .fs, .movAxSeg .gs,
    .pushEax,
    .pushArg destEsp,
    .pushfI,
    .pushArg destCs,
    .pushArg destEip,
    .callEOI 0,
    .stiI,
    .iretI ]

/-- `context_switch(esp, eip, data_selector, code_selector)`: run the routine
from CPU state `c`, returning the final state and the event trace. -/
def context_switch (c : CPU) (destEsp destEip dataSel destCs : Nat) :
    CPU × List Event :=
  exec c (context_switch_prog destEsp destEip dataSel destCs)

/-- The lines passed to `pic_EOI` in a trace, in order. -/
def eoiLines (evs : List Event) : List Nat :=
  evs.filterMap fun e =>
    match e with
    | .eoi line => some line
    | _ => none

/-- Whether an event is an interrupt acknowledgment. -/
def is_eoi : Event → Bool
  | .eoi _ => true
  | _ => false

/-- Whether an event is `sti`. -/
def is_sti : Event → Bool
  | .sti => true
  | _ => false

/-- The values pushed during a trace, in push order; for `context_switch` this
is the privilege-transition return stack image built for `iret`, bottom-most
slot first. -/
def pushedValues (evs : List Event) : List Nat :=
  evs.filterMap fun e =>
    match e with
    | .push v => some v
    | _ => none

/-- The privilege-transition return stack image constructed by
`context_switch`, as the ordered list of values it pushes (bottom-most slot
first: the slot layout is `ss`, `esp`, `eflags`, `cs`, `eip` when all five are
present). -/
def stack_image (c : CPU) (destEsp destEip dataSel destCs : Nat) : List Nat :=
  pushedValues (context_switch c destEsp destEip dataSel destCs).2

/-! ## Register frames and the suspension round trip

The specification's Register Frame (§3): general-purpose registers, the four
data-segment selectors, saved flags, instruction pointer and code segment,
stack pointer and stack segment.  Modelled from the spec: frame capture is
performed by hardware interrupt entry, which is outside the shown sources, and
simply snapshots the named CPU registers. -/

/-- Register Frame per the specification §3. -/
structure Frame where
  eax : Nat
  ebx : Nat
  ecx : Nat
  edx : Nat
  esi : Nat
  edi : Nat
  ebp : Nat
  ds : Nat
  es : Nat
  fs : Nat
  gs : Nat
  eflags : Nat
  eip : Nat
  cs : Nat
  esp : Nat
  ss : Nat
  deriving Repr, DecidableEq, BEq

/-- Modelled from the spec: suspension (interrupt entry) captures the CPU
registers into a Register Frame.  The capture code itself is not among the
shown sources; the spec describes it as a snapshot of the CPU-visible state. -/
def capture (c : CPU) : Frame :=
  { eax := c.eax, ebx := c.ebx, ecx := c.ecx, edx := c.edx,
    esi := c.esi, edi := c.edi, ebp := c.ebp,
    ds := c.ds, es := c.es, fs := c.fs, gs := c.gs,
    eflags := c.eflags, eip := c.eip, cs := c.cs,
    esp := c.esp, ss := c.ss }

/-- The round trip of the specification's §8 round-trip property: capture a
suspended context `u` into a frame, invoke `context_switch` from kernel
context `k` with that frame's stack pointer, instruction pointer, data
selector and code selector, and re-capture the CPU state the destination
observes. -/
def roundtrip (u k : CPU) : Frame :=
  capture (context_switch k (capture u).esp (capture u).eip
    (capture u).ds (capture u).cs).1

/-- A concrete suspended user context (CPL 3, user selectors `0x1B`/`0x23`),
used as the frame donor in concrete instances. -/
def ucpu0 : CPU :=
  { eax := 5, ebx := 6, ecx := 7, edx := 8, esi := 9, edi := 10,
    ebp := 11, esp := 4096, ds := 35, es := 35, fs := 35, gs := 35,
    ss := 35, cs := 27, eip := 2048, eflags := 514, cpl := 3, stack := [] }

/-- A concrete kernel context (CPL 0, kernel selectors `0x08`/`0x10`) from
which `context_switch` is invoked in concrete instances. -/
def kcpu0 : CPU :=
  { eax := 100, ebx := 101, ecx := 102, edx := 103, esi := 104, edi := 105,
    ebp := 106, esp := 9000, ds := 16, es := 16, fs := 16, gs := 16,
    ss := 16, cs := 8, eip := 5000, eflags := 2, cpl := 0, stack := [] }

/-! ## The `sys_exit` handler

`sys_exit(process, registers)` is straight-line C:
`process_exit(process, registers->ebx); pic_EOI(0x80); STI(); asm("int $0x20");
while(1);`.  Its observable behaviour is the event trace of its four effectful
statements; its control flow (including the trailing idle loop and the absence
of any return) is a step function on program locations. -/

/-- The register snapshot `regs_t` passed to syscall handlers.  Modelled from
the spec: the header defining `regs_t` is not among the shown sources; the
spec's Register Frame fixes the general-purpose register set.  `sys_exit`
reads only the `ebx` field. -/
structure regs_t where
  eax : Nat
  ebx : Nat
  ecx : Nat
  edx : Nat
  esi : Nat
  edi : Nat
  ebp : Nat
  esp : Nat
  deriving Repr, DecidableEq, BEq

/-- The effectful statements of the `sys_exit` body, one constructor per
source statement. -/
inductive CStmt
  | callProcessExit (p s : Nat)
  | callPicEOI (line : Nat)
  | stiS
  | intTrap (v : Nat)
  deriving Repr, DecidableEq

/-- The event emitted by one `sys_exit` statement. -/
def cstep : CStmt → Event
  | .callProcessExit p s => .processExit p s
  | .callPicEOI line => .eoi line
  | .stiS => .sti
  | .intTrap v => .softTrap v

/-- The statement list of `sys_exit(process, registers)` up to the idle loop,
line by line: `process_exit(process, registers->ebx)`, `pic_EOI(0x80)`,
`STI()`, `asm("int $0x20")`.  The process pointer is modelled as a `Nat`. -/
def sys_exit_prog (process : Nat) (registers : regs_t) : List CStmt :=
  [ .callProcessExit process registers.ebx,
    .callPicEOI 128,
    .stiS,
    .intTrap 32 ]

/-- The event trace of `sys_exit(process, registers)`. -/
def sys_exit_events (process : Nat) (registers : regs_t) : List Event :=
  (sys_exit_prog process registers).map cstep

/-- Whether an event is a `process_exit` invocation. -/
def is_process_exit : Event → Bool
  | .processExit _ _ => true
  | _ => false

/-- Program locations of `sys_exit`: its four statements, the `while(1);`
idle loop, and the (never-reached) function return point after the loop. -/
inductive SLoc
  | callHook | ack | enable | trap | loop | ret
  deriving Repr, DecidableEq, BEq

/-- Control flow of `sys_exit`: each statement falls through to the next, the
`while(1);` loop repeats forever, and no edge leads to the return point. -/
def sys_exit_step : SLoc → SLoc
  | .callHook => .ack
  | .ack => .enable
  | .enable => .trap
  | .trap => .loop
  | .loop => .loop
  | .ret => .ret

/-- The location `sys_exit` is at after `n` steps from its entry. -/
def sys_exit_locs : Nat → SLoc
  | 0 => .callHook
  | n + 1 => sys_exit_step (sys_exit_locs n)

/-- A concrete `regs_t` whose `ebx` (the designated exit-status argument
register) holds 7, matching the specification's `(P, 7)` scenario. -/
def regs7 : regs_t :=
  { eax := 1, ebx := 7, ecx := 0, edx := 0, esi := 0, edi := 0,
    ebp := 0, esp := 0 }

/-! ## `read_boot_tags` (src/multiboot.c)

The multiboot tag-type constants come from the Multiboot 2 specification (the
repository's `multiboot.h` is not among the shown sources; these are the
standard values, and only their distinctness matters to the proofs).  A tag is
modelled as a record holding the common header (`type`, `size`) together with
the payload fields the function reads through casts (`string` for the two
string tag types, `mem_lower` / `mem_upper` for the basic-meminfo tag);
pointers are modelled as `Nat` addresses. -/

def MULTIBOOT_TAG_TYPE_END : Nat := 0
def MULTIBOOT_TAG_TYPE_CMDLINE : Nat := 1
def MULTIBOOT_TAG_TYPE_BOOT_LOADER_NAME : Nat := 2
def MULTIBOOT_TAG_TYPE_MODULE : Nat := 3
def MULTIBOOT_TAG_TYPE_BASIC_MEMINFO : Nat := 4
def MULTIBOOT_TAG_TYPE_BOOTDEV : Nat := 5

/-- A multiboot tag: common header plus the payload fields `read_boot_tags`
can read.  `size` is a `uint32_t` field. -/
structure multiboot_tag where
  type : Nat
  size : Nat
  string : Nat
  mem_lower : Nat
  mem_upper : Nat
  deriving Repr, DecidableEq, BEq

/-- The result record of `read_boot_tags`; the fields it writes.  `bzero`
initialises every field to 0 (null pointers are the address 0). -/
structure boot_info where
  cmdline : Nat
  loader_name : Nat
  mem_lower : Nat
  mem_upper : Nat
  deriving Repr, DecidableEq, BEq

/-- The `bzero`-ed initial `boot_info`. -/
def boot_info_zero : boot_info :=
  { cmdline := 0, loader_name := 0, mem_lower := 0, mem_upper := 0 }

/-- The `switch (tag->type)` body of `read_boot_tags`, branch by branch:
`CMDLINE` and `BOOT_LOADER_NAME` store the tag's string pointer,
`BASIC_MEMINFO` stores the two memory bounds, `MODULE` and `BOOTDEV` are
empty (`// TODO`), and `default` does nothing. -/
def apply_tag (data : boot_info) (tag : multiboot_tag) : boot_info :=
  if tag.type = MULTIBOOT_TAG_TYPE_CMDLINE then
    { data with cmdline := tag.string }
  else if tag.type = MULTIBOOT_TAG_TYPE_BOOT_LOADER_NAME then
    { data with loader_name := tag.string }
  else if tag.type = MULTIBOOT_TAG_TYPE_MODULE then
    data
  else if tag.type = MULTIBOOT_TAG_TYPE_BASIC_MEMINFO then
    { data with mem_lower := tag.mem_lower, mem_upper := tag.mem_upper }
  else if tag.type = MULTIBOOT_TAG_TYPE_BOOTDEV then
    data
  else
    data

/-- `read_boot_tags` over a tag sequence given as a list: fold the switch body
over the tags in order, stopping at the first `END` tag. -/
def read_boot_tags (data : boot_info) : List multiboot_tag → boot_info
  | [] => data
  | tag :: rest =>
    if tag.type = MULTIBOOT_TAG_TYPE_END then data
    else read_boot_tags (apply_tag data tag) rest

/-- The loop's pointer bump `(tag->size + 7) & ~7`, computed in `uint32_t`
arithmetic: the sum wraps modulo `2^32` and the mask clears the low three
bits. -/
def align8 (s : Nat) : Nat := (s + 7) % 2 ^ 32 / 8 * 8

/-- `read_boot_tags` as the source writes it: a walk over tag records indexed
by byte offset, advancing by `align8` of the current tag's size until an `END`
tag is reached.  The walk is bounded by `fuel` iterations and returns `none`
when the bound is exhausted before an `END` tag is found, so termination of
the C loop within a memory `mem` is exactly `∃ fuel, (… ).isSome`. -/
def read_boot_tags_mem : Nat → (Nat → multiboot_tag) → Nat → boot_info →
    Option boot_info
  | 0, _, _, _ => none
  | fuel + 1, mem, off, data =>
    if (mem off).type = MULTIBOOT_TAG_TYPE_END then some data
    else read_boot_tags_mem fuel mem (off + align8 (mem off).size)
      (apply_tag data (mem off))

/-- The terminating `END` tag (type 0, size 8). -/
def end_tag : multiboot_tag :=
  { type := 0, size := 8, string := 0, mem_lower := 0, mem_upper := 0 }

/-- Memory holding the given tags consecutively from offset 0, each tag
starting `align8` of the previous tag's size after the previous one, followed
by an `END` tag; the layout a multiboot bootloader provides. -/
def layout : List multiboot_tag → Nat → multiboot_tag
  | [], _ => end_tag
  | tag :: rest, off =>
    if off = 0 then tag else layout rest (off - align8 tag.size)

/-- Whether a tag is one of the two deliberately ignored types (`MODULE`,
`BOOTDEV`). -/
def is_module_or_bootdev (tag : multiboot_tag) : Bool :=
  tag.type == MULTIBOOT_TAG_TYPE_MODULE || tag.type == MULTIBOOT_TAG_TYPE_BOOTDEV

/-- A non-`END` tag whose `uint32_t` size field makes the pointer bump wrap to
zero: `align8 4294967295 = 0`. -/
def wrap_tag : multiboot_tag :=
  { type := 1, size := 4294967295, string := 0, mem_lower := 0, mem_upper := 0 }

/-- A small concrete cmdline tag used in concrete instances. -/
def cmdline_tag : multiboot_tag :=
  { type := 1, size := 16, string := 123, mem_lower := 0, mem_upper := 0 }

/-! ## The alignment macros (src/util/util.h)

Addresses are 32-bit: `intptr_t` two's-complement bit patterns coincide with
the unsigned residues modulo `2^32`, so an address is a `Nat` assumed below
`2^32` where it matters, and `~((intptr_t)(n) - 1)` is the 32-bit mask
`2^32 - n` (for `n ≥ 1`). -/

/-- `IS_ALIGNED(ptr, n)`: `(((intptr_t)(ptr) & ((n) - 1)) == 0)`. -/
def IS_ALIGNED (p n : Nat) : Bool := p &&& (n - 1) == 0

/-- `ALIGN_DOWN(ptr, n)`: `(intptr_t)(ptr) & ~((intptr_t)(n) - 1)`, with the
complement taken as a 32-bit mask. -/
def ALIGN_DOWN (p n : Nat) : Nat := p &&& (2 ^ 32 - n)

/-- `ALIGN_UP(ptr, n)`: `ALIGN_DOWN(ptr, n) + (n)`, with the pointer addition
performed in 32-bit arithmetic: the sum wraps modulo `2^32` as the machine's
32-bit pointer computation does (`ALIGN_UP(2^32 - 4, 4)` is 0, not
`2^32`). -/
def ALIGN_UP (p n : Nat) : Nat := (ALIGN_DOWN p n + n) % 2 ^ 32

/-- `ALIGN(ptr, n)`: `IS_ALIGNED(ptr, n) ? ptr : ALIGN_UP(ptr, n)`. -/
def ALIGN (p n : Nat) : Nat := if IS_ALIGNED p n then p else ALIGN_UP p n

/-! ## Theorems -/

/-- C1: in every invocation of `context_switch`, the observed operation trace
is exactly: the four destination data-segment selector loads, then the five
pushes constructing the privilege-transition return stack image, then the
interrupt acknowledgment `pic_EOI`, then `sti`, then `iret` — with the
privilege-transition return the last operation of the switch. -/
theorem context_switch_operation_order (c : CPU) (e i d cs : Nat) :
    ((context_switch c e i d cs).2.map evKind) =
      [.kLoadSeg, .kLoadSeg, .kLoadSeg, .kLoadSeg,
       .kPush, .kPush, .kPush, .kPush, .kPush,
       .kEoi, .kSti, .kIret] := rfl

/-- C2 (counterexample): the acknowledgment line is a handler-local constant,
not derived from the entry interrupt vector.  `context_switch` passes the
literal `0` (`push $0x0; call pic_EOI`) no matter which destination context —
and hence which concluded delivery — it is invoked for, while `sys_exit`,
concluding a syscall-trap (vector `0x80`) delivery, passes the literal
`0x80`; the syscall-trap deliveries concluded through the common switch path
are acknowledged on line 0, those concluded by `sys_exit` on line 128, so no
function of the entry vector yields the line argument. -/
theorem eoi_line_is_handler_constant :
    eoiLines (context_switch kcpu0 4096 2048 35 27).2 = [0] ∧
    eoiLines (context_switch kcpu0 111 222 35 27).2 = [0] ∧
    eoiLines (sys_exit_events 1 regs7) = [128] :=
  ⟨rfl, rfl, rfl⟩

/-- C2 (amended): for every delivery handled via `context_switch` or
`sys_exit`, `pic_EOI` is invoked exactly once and before interrupts are
re-enabled; but its line argument is a handler-local constant — the literal
`0` in `context_switch` and the literal `0x80` in `sys_exit` — rather than a
value derived from the entry interrupt vector. -/
theorem eoi_exactly_once_before_sti (c : CPU) (e i d cs p : Nat) (r : regs_t) :
    eoiLines (context_switch c e i d cs).2 = [0] ∧
    (context_switch c e i d cs).2.findIdx is_eoi <
      (context_switch c e i d cs).2.findIdx is_sti ∧
    eoiLines (sys_exit_events p r) = [128] ∧
    (sys_exit_events p r).findIdx is_eoi <
      (sys_exit_events p r).findIdx is_sti := by
  refine ⟨rfl, ?_, rfl, ?_⟩
  · show (9 : Nat) < 10
    decide
  · show (1 : Nat) < 2
    decide

/-- C3: `sys_exit(process, registers)` performs its effects in exactly this
order: it invokes the process lifecycle hook `process_exit` with the process
and the exit status held in the `ebx` argument register, then acknowledges
the interrupt, then re-enables interrupts, then issues the software trap
`int $0x20` into the kernel's normal resume path. -/
theorem sys_exit_effect_order (p : Nat) (r : regs_t) :
    sys_exit_events p r =
      [.processExit p r.ebx, .eoi 128, .sti, .softTrap 32] := rfl

/-- C5 (counterexample): invoking `context_switch` from `kcpu0` (current
privilege level 0) with destination code selector 8 — whose requested
privilege level `8 % 4 = 0` equals the current one, so no ring transition
occurs — still produces a five-slot stack image whose bottom two slots are
the stack segment selector (30) and stack pointer (10); the claim requires
that no such pair be pushed when the privilege levels are equal. -/
theorem stack_pair_pushed_without_ring_transition :
    kcpu0.cpl = 0 ∧ 8 % 4 = 0 ∧
    stack_image kcpu0 10 20 30 8 = [30, 10, 2, 8, 20] :=
  ⟨rfl, rfl, rfl⟩

/-- C5 (amended): the stack segment selector and stack pointer pair is always
included in the stack image constructed by `context_switch`, regardless of
the destination and current privilege levels: the image is always the five
slots `ss` (the data selector), `esp`, `eflags` (the current flags), `cs`,
`eip`. -/
theorem stack_image_always_five_slots (c : CPU) (e i d cs : Nat) :
    stack_image c e i d cs =
      [d % 2 ^ 32, e % 2 ^ 32, c.eflags % 2 ^ 32, cs % 2 ^ 32, i % 2 ^ 32] := by
  simp [stack_image, pushedValues, context_switch, context_switch_prog, exec,
    step, pushOp, setSeg, Nat.mod_mod]

/-- C6: `sys_exit(process, registers)` invokes the process lifecycle hook
`process_exit` exactly once, and the arguments it observes are exactly the
process and the status held in the designated argument register `ebx`; in
particular a process `P` exiting with 7 in `ebx` is observed as `(P, 7)`
exactly once. -/
theorem sys_exit_calls_process_exit_once (p : Nat) (r : regs_t) :
    (sys_exit_events p r).filter is_process_exit = [.processExit p r.ebx] :=
  rfl

/-- C7: `sys_exit` never returns: its control flow reaches the software trap
at step 3, and from step 4 onwards it stays in the `while(1);` idle loop
forever; the function return point is never reached on any path. -/
theorem sys_exit_never_returns :
    (∀ n, (sys_exit_locs n == SLoc.ret) = false) ∧
    sys_exit_locs 3 = SLoc.trap ∧
    (∀ n, sys_exit_locs (4 + n) = SLoc.loop) := by
  refine ⟨?_, rfl, ?_⟩
  · intro n
    induction n with
    | zero => rfl
    | succ m ih =>
      show (sys_exit_step (sys_exit_locs m) == SLoc.ret) = false
      cases h : sys_exit_locs m <;> try rfl
      rw [h] at ih
      exact ih
  · intro n
    induction n with
    | zero => rfl
    | succ m ih =>
      show sys_exit_step (sys_exit_locs (4 + m)) = SLoc.loop
      rw [ih]
      rfl

/-- A `MODULE` or `BOOTDEV` tag is not the `END` tag and its switch branch
leaves the accumulated `boot_info` unchanged. -/
theorem apply_tag_module_bootdev (data : boot_info) (t : multiboot_tag)
    (h : is_module_or_bootdev t = true) :
    t.type ≠ MULTIBOOT_TAG_TYPE_END ∧ apply_tag data t = data := by
  have h35 : t.type = 3 ∨ t.type = 5 := by
    simpa [is_module_or_bootdev, MULTIBOOT_TAG_TYPE_MODULE,
      MULTIBOOT_TAG_TYPE_BOOTDEV] using h
  rcases h35 with h3 | h5
  · exact ⟨by simp [h3, MULTIBOOT_TAG_TYPE_END],
      by simp [apply_tag, h3, MULTIBOOT_TAG_TYPE_CMDLINE,
        MULTIBOOT_TAG_TYPE_BOOT_LOADER_NAME, MULTIBOOT_TAG_TYPE_MODULE]⟩
  · exact ⟨by simp [h5, MULTIBOOT_TAG_TYPE_END],
      by simp [apply_tag, h5, MULTIBOOT_TAG_TYPE_CMDLINE,
        MULTIBOOT_TAG_TYPE_BOOT_LOADER_NAME, MULTIBOOT_TAG_TYPE_MODULE,
        MULTIBOOT_TAG_TYPE_BASIC_MEMINFO, MULTIBOOT_TAG_TYPE_BOOTDEV]⟩

/-- Removing the `MODULE` and `BOOTDEV` tags from a tag list does not change
the result of the `read_boot_tags` fold, from any accumulator. -/
theorem read_boot_tags_filter_aux (ts : List multiboot_tag) :
    ∀ data, read_boot_tags data ts =
      read_boot_tags data (ts.filter fun t => !is_module_or_bootdev t) := by
  induction ts with
  | nil => intro _; rfl
  | cons t ts ih =>
    intro data
    by_cases hmb : is_module_or_bootdev t = true
    · obtain ⟨hne, happ⟩ := apply_tag_module_bootdev data t hmb
      rw [List.filter_cons_of_neg (by simp [hmb])]
      rw [read_boot_tags, if_neg hne, happ]
      exact ih data
    · rw [List.filter_cons_of_pos (by simp [Bool.not_eq_true] at hmb; simp [hmb])]
      by_cases hend : t.type = MULTIBOOT_TAG_TYPE_END
      · rw [read_boot_tags, if_pos hend, read_boot_tags, if_pos hend]
      · rw [read_boot_tags, if_neg hend, read_boot_tags, if_neg hend]
        exact ih (apply_tag data t)

/-- C8: `MODULE` and `BOOTDEV` multiboot tags are ignored by
`read_boot_tags`: for every tag list the returned `boot_info` is identical to
the one returned for the same list with all `MODULE` and `BOOTDEV` tags
removed, and the switch branch for such a tag changes no field of the
result. -/
theorem read_boot_tags_ignores_module_bootdev :
    (∀ ts, read_boot_tags boot_info_zero ts =
        read_boot_tags boot_info_zero
          (ts.filter fun t => !is_module_or_bootdev t)) ∧
    (∀ data s str ml mu,
        apply_tag data
          { type := MULTIBOOT_TAG_TYPE_MODULE, size := s, string := str,
            mem_lower := ml, mem_upper := mu } = data ∧
        apply_tag data
          { type := MULTIBOOT_TAG_TYPE_BOOTDEV, size := s, string := str,
            mem_lower := ml, mem_upper := mu } = data) :=
  ⟨fun ts => read_boot_tags_filter_aux ts boot_info_zero,
   fun _ _ _ _ _ => ⟨rfl, rfl⟩⟩

/-- When `1 ≤ size` and `size + 7` avoids the `uint32_t` wrap, the loop's
pointer bump is at least 8. -/
theorem align8_ge_eight (s : Nat) (h1 : 1 ≤ s) (h2 : s + 7 < 2 ^ 32) :
    8 ≤ align8 s := by
  unfold align8
  rw [Nat.mod_eq_of_lt h2]
  have h8 : 1 ≤ (s + 7) / 8 := (Nat.one_le_div_iff (by norm_num)).2 (by omega)
  omega

/-- Offsets past the first tag of a layout land in the layout of the
remaining tags, provided the first tag's bump is positive. -/
theorem layout_cons_shift (t : multiboot_tag) (rest : List multiboot_tag)
    (hpos : 0 < align8 t.size) (k : Nat) :
    layout (t :: rest) (align8 t.size + k) = layout rest k := by
  have hne : align8 t.size + k ≠ 0 := by omega
  rw [layout, if_neg hne]
  congr 1
  omega

/-- The memory walk started past the first tag of a layout coincides with the
walk over the layout of the remaining tags. -/
theorem read_boot_tags_mem_shift (t : multiboot_tag)
    (rest : List multiboot_tag) (hpos : 0 < align8 t.size) :
    ∀ fuel k data,
      read_boot_tags_mem fuel (layout (t :: rest)) (align8 t.size + k) data =
        read_boot_tags_mem fuel (layout rest) k data := by
  intro fuel
  induction fuel with
  | zero => intro k data; rfl
  | succ m ih =>
    intro k data
    rw [read_boot_tags_mem, read_boot_tags_mem]
    rw [layout_cons_shift t rest hpos k]
    by_cases hend : (layout rest k).type = MULTIBOOT_TAG_TYPE_END
    · rw [if_pos hend, if_pos hend]
    · rw [if_neg hend, if_neg hend]
      have hassoc : align8 t.size + k + align8 (layout rest k).size =
          align8 t.size + (k + align8 (layout rest k).size) := by omega
      rw [hassoc, ih]

/-- The memory walk over the layout of a tag list whose non-`END` tags have
sizes in `[1, 2^32 - 8]` reaches the terminating `END` tag within
`length + 1` iterations, from any accumulator. -/
theorem read_boot_tags_mem_layout_total (ts : List multiboot_tag)
    (h : ∀ t ∈ ts, t.type ≠ MULTIBOOT_TAG_TYPE_END →
      1 ≤ t.size ∧ t.size + 7 < 2 ^ 32) :
    ∀ data,
      (read_boot_tags_mem (ts.length + 1) (layout ts) 0 data).isSome = true := by
  induction ts with
  | nil => intro _; rfl
  | cons t ts ih =>
    intro data
    simp only [List.length_cons]
    rw [read_boot_tags_mem]
    rw [show layout (t :: ts) 0 = t from rfl]
    by_cases hend : t.type = MULTIBOOT_TAG_TYPE_END
    · rw [if_pos hend]; rfl
    · rw [if_neg hend]
      obtain ⟨h1, h2⟩ := h t (List.mem_cons_self t ts) hend
      have hpos : 0 < align8 t.size :=
        lt_of_lt_of_le (by norm_num) (align8_ge_eight t.size h1 h2)
      rw [show (0 : Nat) + align8 t.size = align8 t.size + 0 from by omega]
      rw [read_boot_tags_mem_shift t ts hpos (ts.length + 1) 0]
      exact ih (fun u hu hun => h u (List.mem_cons_of_mem t hu) hun)
        (apply_tag data t)

/-- C9 (counterexample): the tag `wrap_tag` is a non-`END` tag (type
`CMDLINE`) with size field `4294967295 ≥ 1`, so the sequence `[wrap_tag]`
terminated by an `END` tag satisfies the claim's precondition; but
`(4294967295 + 7) & ~7` in `uint32_t` arithmetic is `0`, the tag pointer
never advances, and the loop never reaches the `END` tag: no iteration bound
makes `read_boot_tags` return. -/
theorem read_boot_tags_stuck_on_wrapping_size :
    wrap_tag.type = MULTIBOOT_TAG_TYPE_CMDLINE ∧ 1 ≤ wrap_tag.size ∧
    ∀ fuel data,
      read_boot_tags_mem fuel (layout [wrap_tag]) 0 data = none := by
  refine ⟨rfl, by decide, ?_⟩
  intro fuel
  induction fuel with
  | zero => intro _; rfl
  | succ m ih =>
    intro data
    show read_boot_tags_mem m (layout [wrap_tag]) 0 (apply_tag data wrap_tag)
      = none
    exact ih _

/-- C9 (amended): for every input tag sequence that is terminated by an `END`
tag and in which every non-`END` tag has a size field of at least 1 *and at
most `2^32 - 8`*, `read_boot_tags` terminates: each iteration advances the
tag pointer by the tag's size rounded up to a multiple of 8 in `uint32_t`
arithmetic, which is positive under this strengthened precondition (the
original precondition `size ≥ 1` alone is not enough: a size above
`2^32 - 8` makes the rounded bump wrap to 0). -/
theorem read_boot_tags_terminating (ts : List multiboot_tag)
    (h : ∀ t ∈ ts, t.type ≠ MULTIBOOT_TAG_TYPE_END →
      1 ≤ t.size ∧ t.size + 7 < 2 ^ 32) :
    (read_boot_tags_mem (ts.length + 1) (layout ts) 0 boot_info_zero).isSome
      = true :=
  read_boot_tags_mem_layout_total ts h boot_info_zero

/-- Witness for the termination theorem at the singleton sequence holding one
well-formed `CMDLINE` tag. -/
theorem read_boot_tags_terminating_witness :
    (read_boot_tags_mem 2 (layout [cmdline_tag]) 0 boot_info_zero).isSome
      = true :=
  read_boot_tags_terminating [cmdline_tag]
    (by intro t ht; rw [List.mem_singleton] at ht; subst ht; decide)

/-- For a 32-bit value, masking with the 32-bit complement of `2^k - 1`
clears the low `k` bits: it yields the largest multiple of `2^k` not
exceeding the value. -/
theorem and_high_mask (p k : Nat) (hp : p < 2 ^ 32) (hk : k ≤ 32) :
    p &&& (2 ^ 32 - 2 ^ k) = 2 ^ k * (p / 2 ^ k) := by
  have h1 : (2 : Nat) ^ k * 2 ^ (32 - k) = 2 ^ 32 := by
    rw [← pow_add]
    congr 1
    omega
  have hmask : (2 : Nat) ^ 32 - 2 ^ k = 2 ^ k * (2 ^ (32 - k) - 1) := by
    rw [Nat.mul_sub_one, h1]
  apply Nat.eq_of_testBit_eq
  intro j
  rw [hmask, Nat.testBit_and, Nat.testBit_mul_pow_two, Nat.testBit_mul_pow_two,
    Nat.testBit_two_pow_sub_one]
  rw [← Nat.shiftRight_eq_div_pow, Nat.testBit_shiftRight]
  by_cases hjk : k ≤ j
  · rw [show k + (j - k) = j from by omega]
    by_cases hj : j < 32
    · have hlt : j - k < 32 - k := by omega
      simp [ge_iff_le, hjk, hlt]
    · have hpb : p.testBit j = false :=
        Nat.testBit_lt_two_pow
          (Nat.lt_of_lt_of_le hp (Nat.pow_le_pow_right (by norm_num) (by omega)))
      have hnlt : ¬ j - k < 32 - k := by omega
      simp [hpb, hnlt]
  · simp [ge_iff_le, hjk]

/-- `IS_ALIGNED(p, 2^k)` tests exactly divisibility by `2^k`. -/
theorem IS_ALIGNED_iff (p k : Nat) :
    IS_ALIGNED p (2 ^ k) = true ↔ p % 2 ^ k = 0 := by
  unfold IS_ALIGNED
  rw [Nat.and_pow_two_sub_one_eq_mod]
  simp

/-- C10 (counterexample): the macro's 32-bit pointer arithmetic wraps at the
top of the address space, so `ALIGN` is not the least multiple for every
address: at `p = 2^32 - 1` and `n = 4` the machine computes
`ALIGN_DOWN = 2^32 - 4` and the addition of 4 wraps to 0, so
`ALIGN(2^32 - 1, 4) = 0`, which is not at least `p` as the claim
requires. -/
theorem ALIGN_wraps_at_top_address :
    ALIGN 4294967295 (2 ^ 2) = 0 ∧
    decide (4294967295 ≤ ALIGN 4294967295 (2 ^ 2)) = false := by decide

/-- C10 (amended): for every power of two `n = 2^k` and every 32-bit address
`p` with `p + n < 2^32` (so the least multiple of `n` at least `p` is
representable in the 32-bit pointer), `ALIGN(p, n)` evaluates to the least
multiple of `n` that is at least `p` — stated by the ceiling formula
`n * ((p + n - 1) / n)` together with `p ≤ ALIGN(p, n)` and
`n ∣ ALIGN(p, n)`; in particular `ALIGN` is the identity on every
already-aligned address (every such address is `n * (p / n)` for some `p`),
even though `ALIGN_UP` alone sends that address to itself plus `n`.  For
addresses above `2^32 - n` the 32-bit pointer addition in `ALIGN_UP` wraps
and the property fails. -/
theorem ALIGN_is_least_multiple (p k : Nat) (hp : p + 2 ^ k < 2 ^ 32)
    (hk : k < 32) :
    ALIGN p (2 ^ k) = 2 ^ k * ((p + 2 ^ k - 1) / 2 ^ k) ∧
    p ≤ ALIGN p (2 ^ k) ∧
    2 ^ k ∣ ALIGN p (2 ^ k) ∧
    ALIGN (2 ^ k * (p / 2 ^ k)) (2 ^ k) = 2 ^ k * (p / 2 ^ k) ∧
    ALIGN_UP (2 ^ k * (p / 2 ^ k)) (2 ^ k) = 2 ^ k * (p / 2 ^ k) + 2 ^ k := by
  have hk32 : k ≤ 32 := Nat.le_of_lt hk
  have hn : 0 < 2 ^ k := Nat.two_pow_pos k
  have hp32 : p < 2 ^ 32 := by omega
  have hdm := Nat.div_add_mod p (2 ^ k)
  have hmlt : p % 2 ^ k < 2 ^ k := Nat.mod_lt p hn
  have hql : 2 ^ k * (p / 2 ^ k) < 2 ^ 32 := Nat.lt_of_le_of_lt (by omega) hp32
  have hupl : 2 ^ k * (p / 2 ^ k) + 2 ^ k < 2 ^ 32 := by omega
  have hmodu : (2 ^ k * (p / 2 ^ k) + 2 ^ k) % 4294967296
      = 2 ^ k * (p / 2 ^ k) + 2 ^ k := Nat.mod_eq_of_lt hupl
  have hAD : ALIGN_DOWN p (2 ^ k) = 2 ^ k * (p / 2 ^ k) :=
    and_high_mask p k hp32 hk32
  have hsucc : 2 ^ k * (p / 2 ^ k + 1) = 2 ^ k * (p / 2 ^ k) + 2 ^ k := by
    rw [Nat.mul_add, Nat.mul_one]
  have halq : IS_ALIGNED (2 ^ k * (p / 2 ^ k)) (2 ^ k) = true :=
    (IS_ALIGNED_iff _ k).2 (Nat.mul_mod_right _ _)
  have hADq : ALIGN_DOWN (2 ^ k * (p / 2 ^ k)) (2 ^ k) = 2 ^ k * (p / 2 ^ k) := by
    have h := and_high_mask (2 ^ k * (p / 2 ^ k)) k hql hk32
    rwa [Nat.mul_div_cancel_left _ hn] at h
  refine ⟨?_, ?_, ?_, by simp [ALIGN, halq],
    by unfold ALIGN_UP; rw [hADq]; exact Nat.mod_eq_of_lt hupl⟩
  all_goals by_cases hal : p % 2 ^ k = 0
  case pos =>
    have hals : IS_ALIGNED p (2 ^ k) = true := (IS_ALIGNED_iff p k).2 hal
    have hA : ALIGN p (2 ^ k) = p := by simp [ALIGN, hals]
    rw [hA]
    have he : p + 2 ^ k - 1 = 2 ^ k * (p / 2 ^ k) + (2 ^ k - 1) := by omega
    rw [he, Nat.mul_add_div hn,
      show ((2 : Nat) ^ k - 1) / 2 ^ k = 0 from Nat.div_eq_of_lt (by omega),
      Nat.add_zero]
    omega
  case neg =>
    have hals : IS_ALIGNED p (2 ^ k) = false := by
      cases h : IS_ALIGNED p (2 ^ k)
      · rfl
      · exact absurd ((IS_ALIGNED_iff p k).1 h) hal
    have hA : ALIGN p (2 ^ k) = 2 ^ k * (p / 2 ^ k) + 2 ^ k := by
      simp [ALIGN, hals, ALIGN_UP, hAD, hmodu]
    rw [hA]
    have he : p + 2 ^ k - 1 = 2 ^ k * (p / 2 ^ k + 1) + (p % 2 ^ k - 1) := by
      omega
    rw [he, Nat.mul_add_div hn,
      show (p % 2 ^ k - 1) / 2 ^ k = 0 from Nat.div_eq_of_lt (by omega),
      Nat.add_zero]
    omega
  case pos =>
    have hals : IS_ALIGNED p (2 ^ k) = true := (IS_ALIGNED_iff p k).2 hal
    have hA : ALIGN p (2 ^ k) = p := by simp [ALIGN, hals]
    rw [hA]
  case neg =>
    have hals : IS_ALIGNED p (2 ^ k) = false := by
      cases h : IS_ALIGNED p (2 ^ k)
      · rfl
      · exact absurd ((IS_ALIGNED_iff p k).1 h) hal
    have hA : ALIGN p (2 ^ k) = 2 ^ k * (p / 2 ^ k) + 2 ^ k := by
      simp [ALIGN, hals, ALIGN_UP, hAD, hmodu]
    rw [hA]
    omega
  case pos =>
    have hals : IS_ALIGNED p (2 ^ k) = true := (IS_ALIGNED_iff p k).2 hal
    have hA : ALIGN p (2 ^ k) = p := by simp [ALIGN, hals]
    rw [hA]
    exact Nat.dvd_of_mod_eq_zero hal
  case neg =>
    have hals : IS_ALIGNED p (2 ^ k) = false := by
      cases h : IS_ALIGNED p (2 ^ k)
      · rfl
      · exact absurd ((IS_ALIGNED_iff p k).1 h) hal
    have hA : ALIGN p (2 ^ k) = 2 ^ k * (p / 2 ^ k) + 2 ^ k := by
      simp [ALIGN, hals, ALIGN_UP, hAD, hmodu]
    rw [hA]
    exact ⟨p / 2 ^ k + 1, by omega⟩

/-- Witness for the alignment theorem at `p = 5`, `n = 2^2 = 4` (well inside
the non-wrapping range `5 + 4 < 2^32`): `ALIGN` rounds 5 up to 8, the least
multiple of 4 at least 5; the aligned address 4 is fixed by `ALIGN` while
`ALIGN_UP` sends it to 8. -/
theorem ALIGN_is_least_multiple_witness :
    ALIGN 5 (2 ^ 2) = 2 ^ 2 * ((5 + 2 ^ 2 - 1) / 2 ^ 2) ∧
    5 ≤ ALIGN 5 (2 ^ 2) ∧
    2 ^ 2 ∣ ALIGN 5 (2 ^ 2) ∧
    ALIGN (2 ^ 2 * (5 / 2 ^ 2)) (2 ^ 2) = 2 ^ 2 * (5 / 2 ^ 2) ∧
    ALIGN_UP (2 ^ 2 * (5 / 2 ^ 2)) (2 ^ 2) = 2 ^ 2 * (5 / 2 ^ 2) + 2 ^ 2 :=
  ALIGN_is_least_multiple 5 2 (by decide) (by decide)

/-- The complete final CPU state of `context_switch` when the destination
code selector requests a privilege level different from the current one: the
instruction pointer, code selector, stack pointer come from the arguments,
all four data-segment registers and the stack segment are loaded from the
single data selector argument, `eax` is clobbered with the data selector,
`ebp` with the kernel stack pointer, and the destination's flags are the
switching context's flags (pushed by `pushf`, re-popped by `iret`), not any
saved flags value. -/
theorem context_switch_final (k : CPU) (e i d c : Nat)
    (hd : d < 2 ^ 16) (hc : c < 2 ^ 16) (hi : i < 2 ^ 32) (he : e < 2 ^ 32)
    (hf : k.eflags < 2 ^ 32) (hp : c % 4 ≠ k.cpl) :
    (context_switch k e i d c).1 =
      { k with
        eax := d, ebp := k.esp, ds := d, es := d, fs := d, gs := d,
        ss := d, cs := c, eip := i, esp := e, eflags := k.eflags,
        cpl := c % 4 } := by
  have hd32 : d < 2 ^ 32 := lt_trans hd (by norm_num)
  have hc32 : c < 2 ^ 32 := lt_trans hc (by norm_num)
  simp only [context_switch, context_switch_prog, exec, step, pushOp, setSeg,
    Nat.mod_mod]
  rw [Nat.mod_eq_of_lt hd32, Nat.mod_eq_of_lt hc32, Nat.mod_eq_of_lt hi,
    Nat.mod_eq_of_lt he, Nat.mod_eq_of_lt hf, Nat.mod_eq_of_lt hd]
  have hc2 : c % 65536 = c := Nat.mod_eq_of_lt hc
  have hd2 : d % 65536 = d := Nat.mod_eq_of_lt hd
  simp [iretOp, hc2, hd2, hp]

/-- C4 (counterexample): a frame saved by suspending the concrete user
context `ucpu0` (`eax = 5`, `eflags = 514`, …), restored via
`context_switch` from the concrete kernel context `kcpu0` and immediately
re-captured, is not the original frame: among other fields, the re-captured
frame's `eax` is 35 (the data selector) instead of 5, its `ebx` is `kcpu0`'s
101 instead of 6, and its flags are `kcpu0`'s 2 instead of the saved 514 —
the switch restores neither the general-purpose registers nor the saved
flags. -/
theorem context_switch_roundtrip_not_identical :
    (roundtrip ucpu0 kcpu0 == capture ucpu0) = false := by decide

/-- C4 (amended): the round trip restores from the frame only the
instruction pointer, code selector, stack pointer, and the single data
selector (which is loaded into DS, ES, FS, GS and SS, and left in `eax`);
every other field of the re-captured frame comes from the switching kernel
context: the general-purpose registers keep the kernel's values (`ebp`
becomes the kernel stack pointer) and the flags are the kernel's flags at
switch time rather than the frame's saved flags. -/
theorem context_switch_roundtrip_restored_fields (u k : CPU)
    (hds : u.ds < 2 ^ 16) (hcs : u.cs < 2 ^ 16) (heip : u.eip < 2 ^ 32)
    (hesp : u.esp < 2 ^ 32) (hefl : k.eflags < 2 ^ 32)
    (hpriv : u.cs % 4 ≠ k.cpl) :
    roundtrip u k =
      { eax := u.ds, ebx := k.ebx, ecx := k.ecx, edx := k.edx, esi := k.esi,
        edi := k.edi, ebp := k.esp, ds := u.ds, es := u.ds, fs := u.ds,
        gs := u.ds, eflags := k.eflags, eip := u.eip, cs := u.cs,
        esp := u.esp, ss := u.ds } := by
  show capture (context_switch k u.esp u.eip u.ds u.cs).1 = _
  rw [context_switch_final k u.esp u.eip u.ds u.cs hds hcs heip hesp hefl
    hpriv]
  rfl

/-- Witness for the round-trip characterization at the concrete contexts
`ucpu0` and `kcpu0`. -/
theorem context_switch_roundtrip_restored_fields_witness :
    roundtrip ucpu0 kcpu0 =
      { eax := ucpu0.ds, ebx := kcpu0.ebx, ecx := kcpu0.ecx, edx := kcpu0.edx,
        esi := kcpu0.esi, edi := kcpu0.edi, ebp := kcpu0.esp, ds := ucpu0.ds,
        es := ucpu0.ds, fs := ucpu0.ds, gs := ucpu0.ds,
        eflags := kcpu0.eflags, eip := ucpu0.eip, cs := ucpu0.cs,
        esp := ucpu0.esp, ss := ucpu0.ds } :=
  context_switch_roundtrip_restored_fields ucpu0 kcpu0 (by decide) (by decide)
    (by decide) (by decide) (by decide) (by decide)

end Maestro
